import Mathlib

/-!
Verification development for the Communication-Breakdown mesh-network simulator.

Shallow embedding of the per-tick propagation engine of
`mvp2-crypto/backend/main.py` together with the economic layer of
`mvp3-mesh-communication/backend/economy.py`.

Modelling conventions:
* Python ints/floats holding credit amounts are modelled as `Int`
  (every monetary constant in the source is an integer).
* Timestamps (`datetime.now().timestamp()`, `created_at`) are modelled as `Int`.
* The great-circle distance oracle (`calculate_distance`) is an external
  collaborator per the architecture; it is passed to the tick as a function
  `dist : Nat → Nat → Int` keyed by node ids (node positions do not change
  during a tick).
* `random.sample` inside the CRDSA resolver is modelled by an explicit slot
  assignment `Nat → List Nat` mapping a packet id to its replica slots;
  validity of an assignment (length, distinctness, bounds) mirrors the
  `random.sample(range(CRDSA_SLOTS_PER_TICK), min(CRDSA_REPLICAS, ...))`
  contract and appears as a hypothesis where needed.
* `uuid.uuid4()` packet ids are modelled by a fresh-id counter threaded
  through the tick; `generate_message_id` (external crypto collaborator) is a
  parameter of `publish_message`.
* The Python dict `node_inventories` has the fixed key set 1..NUM_NODES for
  the whole session; it is modelled as a total function on keys, and its
  per-key loops act pointwise.  The Python list `NODES` stays a list,
  indexed positionally.  Reputation dicts stay association lists
  (insertion ordered, like dicts).
-/

namespace CommBreakdown

/-! ### Constants (economy.py and main.py) -/

def INITIAL_CREDITS : Int := 100
def UBI_AMOUNT : Int := 5
def UBI_INTERVAL_TICKS : Nat := 10
def LOGISTICS_SEND_COST : Int := 2
def LOGISTICS_RELAY_REWARD : Int := 1
def SAFETY_SEND_COST : Int := 0
def SAFETY_RELAY_REWARD : Int := 10

def NUM_NODES : Nat := 10
def MAX_INVENTORY_SIZE : Nat := 100
def MAX_MESSAGE_LENGTH : Nat := 1000
def PACKET_TTL_SECONDS : Int := 300

def CRDSA_ENABLED : Bool := true
def CRDSA_SLOTS_PER_TICK : Nat := 5
def CRDSA_REPLICAS : Nat := 2
def CRDSA_MAX_SIC_ITERATIONS : Nat := 10

/-! ### Wallet (economy.py, class Wallet) -/

structure Wallet where
  node_id : Nat
  balance : Int
  total_earned : Int
  total_spent : Int
  transaction_count : Nat
deriving Repr, DecidableEq

/-- `Wallet.__init__(node_id, initial_credits)`. -/
def Wallet.init (node_id : Nat) (initial_credits : Int := INITIAL_CREDITS) : Wallet :=
  { node_id := node_id, balance := initial_credits, total_earned := 0,
    total_spent := 0, transaction_count := 0 }

/-- `Wallet.add_credits(amount)`: adds only when `amount > 0`. -/
def Wallet.add_credits (w : Wallet) (amount : Int) : Wallet :=
  if amount > 0 then
    { w with balance := w.balance + amount,
             total_earned := w.total_earned + amount,
             transaction_count := w.transaction_count + 1 }
  else w

/-- `Wallet.spend_credits(amount)`: returns the updated wallet and the boolean
result (`True` on success). -/
def Wallet.spend_credits (w : Wallet) (amount : Int) : Wallet × Bool :=
  if amount ≤ 0 then (w, true)
  else if w.balance ≥ amount then
    ({ w with balance := w.balance - amount,
              total_spent := w.total_spent + amount,
              transaction_count := w.transaction_count + 1 }, true)
  else (w, false)

/-! ### ReputationManager (economy.py) -/

structure PeerStats where
  sent : Nat
  relayed : Nat
deriving Repr, DecidableEq

structure ReputationManager where
  node_id : Nat
  peer_stats : List (Nat × PeerStats)
deriving Repr, DecidableEq

def ReputationManager.init (node_id : Nat) : ReputationManager :=
  { node_id := node_id, peer_stats := [] }

def lookupStats (ps : List (Nat × PeerStats)) (peer : Nat) : Option PeerStats :=
  (ps.find? (fun e => e.1 = peer)).map (·.2)

/-- `if peer_id not in self.peer_stats: self.peer_stats[peer_id] = {...0...}` -/
def ensurePeer (ps : List (Nat × PeerStats)) (peer : Nat) : List (Nat × PeerStats) :=
  if (ps.find? (fun e => e.1 = peer)).isSome then ps
  else ps ++ [(peer, { sent := 0, relayed := 0 })]

def bumpPeer (ps : List (Nat × PeerStats)) (peer : Nat) (f : PeerStats → PeerStats) :
    List (Nat × PeerStats) :=
  ps.map (fun e => if e.1 = peer then (e.1, f e.2) else e)

/-- `ReputationManager.record_packet_sent_to_peer`. -/
def ReputationManager.record_packet_sent_to_peer (rm : ReputationManager) (peer : Nat) :
    ReputationManager :=
  let ps := bumpPeer (ensurePeer rm.peer_stats peer) peer
    (fun st => { st with sent := st.sent + 1 })
  { rm with peer_stats := ps }

/-- `ReputationManager.record_successful_relay_by_peer`. -/
def ReputationManager.record_successful_relay_by_peer (rm : ReputationManager) (peer : Nat) :
    ReputationManager :=
  let ps := bumpPeer (ensurePeer rm.peer_stats peer) peer
    (fun st => { st with relayed := st.relayed + 1 })
  { rm with peer_stats := ps }

/-- `ReputationManager.get_reputation_score` (float result modelled as `ℚ`). -/
def ReputationManager.get_reputation_score (rm : ReputationManager) (peer : Nat) : ℚ :=
  match lookupStats rm.peer_stats peer with
  | none => 1
  | some st =>
    if st.sent = 0 then 1
    else min 1 ((st.relayed : ℚ) / (st.sent : ℚ))

/-! ### EconomyTracker (economy.py) -/

structure EconomyTracker where
  total_transactions : Nat
  total_fee_revenue : Int
  total_safety_subsidies : Int
  tick_count : Nat
deriving Repr, DecidableEq

def EconomyTracker.init : EconomyTracker :=
  { total_transactions := 0, total_fee_revenue := 0,
    total_safety_subsidies := 0, tick_count := 0 }

/-- `EconomyTracker.record_transaction(transaction_type, amount)`. -/
def EconomyTracker.record_transaction (e : EconomyTracker) (ttype : String) (amount : Int) :
    EconomyTracker :=
  let e := { e with total_transactions := e.total_transactions + 1 }
  if ttype = "logistics_send" then
    { e with total_fee_revenue := e.total_fee_revenue + amount }
  else if ttype = "safety_relay" then
    { e with total_safety_subsidies := e.total_safety_subsidies + amount }
  else e

/-- `EconomyTracker.increment_tick`. -/
def EconomyTracker.increment_tick (e : EconomyTracker) : EconomyTracker :=
  { e with tick_count := e.tick_count + 1 }

/-! ### Packets and world state (main.py) -/

/-- `MessagePacket` (main.py). `packet_id` and `original_message_id` are
opaque unique strings in the source (uuid4 / crypto hash); modelled as `Nat`. -/
structure Packet where
  packet_id : Nat
  original_message_id : Nat
  publisher_id : Nat
  target_ids : List Nat
  message_text : String
  history : List Nat
  created_at : Int
  message_type : String
  network_type : String
  signature : Option String
  proof : Option String
  is_encrypted : Bool
  ciphertext : Option String
  nonce : Option String
deriving Repr, DecidableEq

/-- `NodeRuntime` (main.py), restricted to the fields the propagation engine
reads: id, broadcast range, the auto-relay flag, wallet, reputation and the
known-message set (a Python set, modelled as a duplicate-free list).
Positions are consumed only through the external distance oracle. -/
structure NodeState where
  id : Nat
  range : Nat
  auto_relay : Bool
  wallet : Wallet
  reputation : ReputationManager
  known_messages : List Nat
deriving Repr, DecidableEq

instance : Inhabited NodeState :=
  ⟨{ id := 0, range := 0, auto_relay := true, wallet := Wallet.init 0,
     reputation := ReputationManager.init 0, known_messages := [] }⟩

/-- Inventories: the Python dict `node_inventories : node_id → List[MessagePacket]`,
whose key set is fixed to 1..NUM_NODES for the whole session; modelled as a
total function on keys (per-key loops of the source act pointwise). -/
abbrev Inventories := Nat → List Packet

def lookupInv (inv : Inventories) (i : Nat) : List Packet := inv i

/-- Point update of one dict entry. -/
def updateInv (inv : Inventories) (i : Nat) (f : List Packet → List Packet) : Inventories :=
  fun j => if j = i then f (inv j) else inv j

/-- Whole simulation world: `NODES`, `node_inventories`, `CONNECTIONS`,
`global_economy`. -/
structure SimState where
  nodes : List NodeState
  inventories : Inventories
  connections : List (Nat × Nat)
  economy : EconomyTracker

/-- Python `set.add` on a modelled set-as-list. -/
def insertKnown (l : List Nat) (x : Nat) : List Nat :=
  if x ∈ l then l else l ++ [x]

/-- Positional update `NODES[i] := f NODES[i]` (no-op out of range;
every index used by the engine on reachable states is in range). -/
def updAt : List NodeState → Nat → (NodeState → NodeState) → List NodeState
  | [], _, _ => []
  | x :: xs, 0, f => f x :: xs
  | x :: xs, i + 1, f => x :: updAt xs i f

/-! ### CRDSA contention resolver (main.py, apply_crdsa_collision_simulation) -/

/-- Slot occupancy after the replica-assignment loop: slot `j` holds, in
inventory order, every packet one of whose replica slots is `j`. -/
def buildSlots (assign : Nat → List Nat) (packets : List Packet) (j : Nat) : List Packet :=
  packets.filter (fun p => j ∈ assign p.packet_id)

/-- One scan over the slots collecting ids of singleton-slot packets still
unresolved (`newly_resolved`; may list the same id once per singleton slot,
as in the source). -/
def findNewlyResolved (slots : Nat → List Packet) (unresolved : List Nat) : List Nat :=
  (List.range CRDSA_SLOTS_PER_TICK).filterMap (fun j =>
    match slots j with
    | [p] => if p.packet_id ∈ unresolved then some p.packet_id else none
    | _ => none)

/-- SIC cancellation of one resolved packet: remove it from each of its
replica slots. -/
def cancelPacket (assign : Nat → List Nat) (slots : Nat → List Packet) (pid : Nat) :
    Nat → List Packet :=
  fun j => if j ∈ assign pid then (slots j).filter (fun p => p.packet_id ≠ pid) else slots j

/-- The SIC iteration (`for iteration in range(CRDSA_MAX_SIC_ITERATIONS)`),
with the remaining iteration count as fuel.  State: slot contents, resolved
ids, unresolved ids. -/
def sicLoop (assign : Nat → List Nat) : Nat → (Nat → List Packet) → List Nat → List Nat →
    List Nat
  | 0, _, resolved, _ => resolved
  | fuel + 1, slots, resolved, unresolved =>
    if unresolved = [] then resolved
    else
      let newly := findNewlyResolved slots unresolved
      if newly = [] then resolved
      else
        let step := newly.foldl
          (fun (st : (Nat → List Packet) × List Nat × List Nat) pid =>
            (cancelPacket assign st.1 pid, st.2.1 ++ [pid], st.2.2.filter (fun x => x ≠ pid)))
          (slots, resolved, unresolved)
        sicLoop assign fuel step.1 step.2.1 step.2.2

/-- Per-node body of `apply_crdsa_collision_simulation`: survivors of the
replica/SIC process, in original order. -/
def crdsaNode (assign : Nat → List Nat) (packets : List Packet) : List Packet :=
  if packets = [] then []
  else
    let resolved := sicLoop assign CRDSA_MAX_SIC_ITERATIONS (buildSlots assign packets)
      [] (packets.map (·.packet_id))
    packets.filter (fun p => p.packet_id ∈ resolved)

/-- `apply_crdsa_collision_simulation` over all inventories. -/
def apply_crdsa_collision_simulation (assign : Nat → List Nat) (inv : Inventories) :
    Inventories :=
  if CRDSA_ENABLED then fun i => crdsaNode assign (inv i) else inv

/-! ### simulation_tick (main.py) -/

/-- Per-tick external inputs: the wall-clock time read by the TTL cleanup,
the CRDSA slot assignment drawn by `random.sample`, and the next fresh
packet id standing in for `uuid.uuid4()`. -/
structure TickParams where
  current_time : Int
  assign : Nat → List Nat
  fresh0 : Nat

/-- TTL filter plus size truncation of one inventory
(`[-MAX_INVENTORY_SIZE:]` keeps the most recent packets). -/
def cleanOne (current_time : Int) (l : List Packet) : List Packet :=
  let kept := l.filter (fun p => current_time - p.created_at < PACKET_TTL_SECONDS)
  if kept.length > MAX_INVENTORY_SIZE then kept.drop (kept.length - MAX_INVENTORY_SIZE)
  else kept

/-- `for node_id in node_inventories:` cleanup loop. -/
def cleanupInventories (current_time : Int) (inv : Inventories) : Inventories :=
  fun i => cleanOne current_time (inv i)

/-- Mutable state of the flooding phase: the node list and economy tracker,
the inventories, the `new_packets` buffer and the fresh packet-id counter. -/
structure FloodAcc where
  nodes : List NodeState
  inv : Inventories
  econ : EconomyTracker
  newPackets : List (Nat × Packet)
  fresh : Nat

/-- Body of `for packet in node_inventories[node_a.id]` for one candidate
packet: the anti-loop check, relay reward, reputation bookkeeping and copy
construction (main.py lines 406-452).  `ia` is `node_a`'s position in
`NODES`, `bId` is `node_b.id`.  `NODES[previous_hop_id - 1]` is modelled
with truncated `Nat` subtraction and an out-of-range-no-op update; history
entries are node ids ≥ 1 on every reachable state, so the Python negative
index never arises. -/
def relayEvent (ia : Nat) (bId : Nat) (acc : FloodAcc) (packet : Packet) : FloodAcc :=
  if bId ∈ packet.history then acc
  else
    let safe := packet.message_type = "Safe"
    let relay_reward := if safe then SAFETY_RELAY_REWARD else LOGISTICS_RELAY_REWARD
    let transaction_type := if safe then "safety_relay" else "logistics_relay"
    let nodes := updAt acc.nodes ia (fun n => { n with wallet := n.wallet.add_credits relay_reward })
    let econ := acc.econ.record_transaction transaction_type relay_reward
    let aId := (acc.nodes.getD ia default).id
    let nodes :=
      if packet.history.length > 1 then
        let previous_hop_id := packet.history.getLastD 0
        if previous_hop_id ≠ packet.publisher_id then
          updAt nodes (previous_hop_id - 1)
            (fun n => { n with reputation := n.reputation.record_successful_relay_by_peer aId })
        else nodes
      else nodes
    let new_packet : Packet :=
      { packet_id := acc.fresh,
        original_message_id := packet.original_message_id,
        publisher_id := packet.publisher_id,
        target_ids := packet.target_ids,
        message_text := packet.message_text,
        history := packet.history ++ [bId],
        created_at := packet.created_at,
        message_type := packet.message_type,
        network_type := packet.network_type,
        signature := packet.signature,
        proof := packet.proof,
        is_encrypted := packet.is_encrypted,
        ciphertext := packet.ciphertext,
        nonce := packet.nonce }
    let nodes := updAt nodes ia
      (fun n => { n with reputation := n.reputation.record_packet_sent_to_peer bId })
    { acc with nodes := nodes, econ := econ,
               newPackets := acc.newPackets ++ [(bId, new_packet)],
               fresh := acc.fresh + 1 }

/-- One ordered pair (node_a, node_b): contact evaluation (external distance
oracle, explicit links), the auto-relay gate, then the packet loop. -/
def processPair (dist : Nat → Nat → Int) (conns : List (Nat × Nat)) (ia : Nat)
    (acc : FloodAcc) (ib : Nat) : FloodAcc :=
  let node_a := acc.nodes.getD ia default
  let node_b := acc.nodes.getD ib default
  if node_a.id = node_b.id then acc
  else
    let distance := dist node_a.id node_b.id
    let connected_via_range := distance ≤ (node_a.range : Int)
    let connected_via_link :=
      (min node_a.id node_b.id, max node_a.id node_b.id) ∈ conns
    if connected_via_range ∨ connected_via_link then
      if node_a.auto_relay then
        (lookupInv acc.inv node_a.id).foldl (relayEvent ia node_b.id) acc
      else acc
    else acc

/-- One entry of the `for node_id, packet in new_packets` commit loop:
dedup on (original_message_id, history), then append and record the
message id in the destination's known-message set. -/
def commitOne (acc : FloodAcc) (entry : Nat × Packet) : FloodAcc :=
  let nid := entry.1
  let packet := entry.2
  let existing := (lookupInv acc.inv nid).any (fun p =>
    p.original_message_id = packet.original_message_id ∧ p.history = packet.history)
  if existing then acc
  else
    { acc with
      inv := updateInv acc.inv nid (fun l => l ++ [packet]),
      nodes := updAt acc.nodes (nid - 1)
        (fun n => { n with known_messages := insertKnown n.known_messages packet.original_message_id }) }

/-- One iteration of the outer `for node_a in NODES` loop: the inner pair
loop, then the commit loop over the whole accumulated `new_packets` buffer
(which the source never clears between senders). -/
def processNodeA (dist : Nat → Nat → Int) (conns : List (Nat × Nat)) (n : Nat)
    (acc : FloodAcc) (ia : Nat) : FloodAcc :=
  let acc := (List.range n).foldl (processPair dist conns ia) acc
  acc.newPackets.foldl commitOne acc

/-- The flooding / settlement phase of `simulation_tick` (main.py 379-465). -/
def floodingPhase (dist : Nat → Nat → Int) (fresh0 : Nat) (s : SimState) : SimState :=
  let n := s.nodes.length
  let acc0 : FloodAcc :=
    { nodes := s.nodes, inv := s.inventories, econ := s.economy,
      newPackets := [], fresh := fresh0 }
  let acc := (List.range n).foldl (processNodeA dist s.connections n) acc0
  { s with nodes := acc.nodes, inventories := acc.inv, economy := acc.econ }

/-- `simulation_tick` (main.py 342-465): tick counter, UBI, TTL cleanup and
size cap, CRDSA, flooding and settlement. -/
def simulation_tick (dist : Nat → Nat → Int) (tp : TickParams) (s : SimState) : SimState :=
  let econ := s.economy.increment_tick
  let nodes :=
    if econ.tick_count % UBI_INTERVAL_TICKS = 0 then
      s.nodes.map (fun n => { n with wallet := n.wallet.add_credits UBI_AMOUNT })
    else s.nodes
  let inv := cleanupInventories tp.current_time s.inventories
  let inv := apply_crdsa_collision_simulation tp.assign inv
  floodingPhase dist tp.fresh0
    { nodes := nodes, inventories := inv, connections := s.connections, economy := econ }

/-- A sequence of ticks with per-tick external inputs. -/
def runTicks (dist : Nat → Nat → Int) (tps : List TickParams) (s : SimState) : SimState :=
  tps.foldl (fun st tp => simulation_tick dist tp st) s

/-! ### publish_message (main.py 565-667), economic/flooding-relevant part.
Transport-level request validation (pydantic) is an external collaborator;
the endpoint's own checks are kept.  The crypto collaborator outputs
(message id, packet id, signature, proof) and the timestamps are
parameters. -/

structure PublishRequest where
  publisher_node_id : Nat
  message_text : String
  target_node_ids : List Nat
  message_type : String
deriving Repr, DecidableEq

/-- `publish_message`: `none` models an HTTPException (unknown node or
402 insufficient credits). -/
def publish_message (req : PublishRequest) (original_message_id packet_id : Nat)
    (timestamp_float : Int) (sigVal proofVal : String) (s : SimState) : Option SimState :=
  if ¬ (1 ≤ req.publisher_node_id ∧ req.publisher_node_id ≤ 10) then none
  else if ¬ (req.target_node_ids.all (fun t => 1 ≤ t ∧ t ≤ 10)) then none
  else
    let idx := req.publisher_node_id - 1
    let publisher_node := s.nodes.getD idx default
    let network_type := if req.message_type = "Safe" then "LoRa" else "WiFi"
    let send_cost := if req.message_type = "Safe" then SAFETY_SEND_COST else LOGISTICS_SEND_COST
    let (wallet, ok) := publisher_node.wallet.spend_credits send_cost
    if ¬ ok then none
    else
      let econ :=
        if req.message_type ≠ "Safe" then
          s.economy.record_transaction "logistics_send" send_cost
        else s.economy
      let packet : Packet :=
        { packet_id := packet_id,
          original_message_id := original_message_id,
          publisher_id := req.publisher_node_id,
          target_ids := req.target_node_ids,
          message_text := req.message_text,
          history := [req.publisher_node_id],
          created_at := timestamp_float,
          message_type := req.message_type,
          network_type := network_type,
          signature := if req.message_type = "Help" then some sigVal else none,
          proof := if req.message_type = "Safe" then some proofVal else none,
          is_encrypted := req.message_type = "Logistics",
          ciphertext := none,
          nonce := none }
      let nodes := updAt s.nodes idx (fun n =>
        { n with wallet := wallet,
                 known_messages := insertKnown n.known_messages original_message_id })
      let inv := updateInv s.inventories req.publisher_node_id (fun l => l ++ [packet])
      some { s with nodes := nodes, inventories := inv, economy := econ }

/-! ### Concrete states used by witnesses and counterexamples -/

/-- A fresh node as `create_fixed_nodes` builds it (range 100 m, auto-relay
on, wallet at `INITIAL_CREDITS`, empty reputation). -/
def mkNode (i : Nat) : NodeState :=
  { id := i, range := 100, auto_relay := true, wallet := Wallet.init i,
    reputation := ReputationManager.init i, known_messages := [] }

def baseNodes : List NodeState := (List.range NUM_NODES).map (fun k => mkNode (k + 1))

def emptyInv : Inventories := fun _ => []

/-- A published "Safe" packet as `publish_message` creates it. -/
def safePacket (pid orig pub : Nat) (hist : List Nat) : Packet :=
  { packet_id := pid, original_message_id := orig, publisher_id := pub,
    target_ids := [pub], message_text := "m", history := hist, created_at := 0,
    message_type := "Safe", network_type := "LoRa", signature := none,
    proof := some "zkp", is_encrypted := false, ciphertext := none, nonce := none }

/-- A published "Logistics" packet as `publish_message` creates it. -/
def logisticsPacket (pid orig pub : Nat) (hist : List Nat) : Packet :=
  { packet_id := pid, original_message_id := orig, publisher_id := pub,
    target_ids := [pub], message_text := "m", history := hist, created_at := 0,
    message_type := "Logistics", network_type := "WiFi", signature := none,
    proof := none, is_encrypted := true, ciphertext := none, nonce := none }

/-- Distance oracle putting every pair out of radio range, so that contact
happens through explicit links only. -/
def farDist : Nat → Nat → Int := fun _ _ => 1000

/-- A fixed valid 2-replica slot assignment (slots 0 and 1 of 5). -/
def assign01 : Nat → List Nat := fun _ => [0, 1]

def tpAt (t : Int) (fresh : Nat) : TickParams :=
  { current_time := t, assign := assign01, fresh0 := fresh }

/-- Put the given packet list into node `i`'s inventory slot. -/
def invWith (entries : List (Nat × List Packet)) : Inventories :=
  fun i => ((entries.find? (fun e => e.1 = i)).map (·.2)).getD []

/-- Sum of all wallet balances. -/
def sumBalances (nodes : List NodeState) : Int :=
  (nodes.map (fun n => n.wallet.balance)).sum

/-! #### Scenario: chain 1-2-3 by explicit links, one Safe packet at node 1
(used for intra-tick multi-hop propagation). -/

def s10 : SimState :=
  { nodes := baseNodes,
    inventories := invWith [(1, [safePacket 1 500 1 [1]])],
    connections := [(1, 2), (2, 3)],
    economy := EconomyTracker.init }

def s10' : SimState := simulation_tick farDist (tpAt 0 1000) s10

/-! #### Scenario: link (1,2) only, one Safe packet at node 1, two ticks
(re-forwarding of an already delivered copy). -/

def sC1x : SimState :=
  { nodes := baseNodes,
    inventories := invWith [(1, [safePacket 1 500 1 [1]])],
    connections := [(1, 2)],
    economy := EconomyTracker.init }

def sC1x' : SimState := runTicks farDist [tpAt 0 1000, tpAt 1 2000] sC1x

/-! #### Scenario: node 3 holds a relayed packet with history [1,2,3],
link (3,4) (reputation attribution at a relay). -/

def sC2x : SimState :=
  { nodes := baseNodes,
    inventories := invWith [(3, [safePacket 7 600 1 [1, 2, 3]])],
    connections := [(3, 4)],
    economy := EconomyTracker.init }

def sC2x' : SimState := simulation_tick farDist (tpAt 0 1000) sC2x

/-! #### Scenario: link (1,2), one Logistics packet at node 1
(logistics relay reward minting). -/

def sC4x : SimState :=
  { nodes := baseNodes,
    inventories := invWith [(1, [logisticsPacket 1 500 1 [1]])],
    connections := [(1, 2)],
    economy := EconomyTracker.init }

def sC4x' : SimState := simulation_tick farDist (tpAt 0 1000) sC4x

/-! #### Scenario: forwarding cascade.  Stage nodes 6..10 each publish four
"Safe" messages; decreasing broadcast ranges make contact one-directional
(stage k reaches the later stages and node 1; nobody reaches back), so one
tick floods node 1 with every history combination. -/

/-- Symmetric distance oracle for the cascade layout (a function of the
unordered pair). -/
def distC3 : Nat → Nat → Int := fun a b =>
  let i := min a b
  let j := max a b
  if i = 1 ∧ 6 ≤ j ∧ j ≤ 10 then (100 : Int) - j
  else if 6 ≤ i ∧ i < j ∧ j ≤ 10 then (100 : Int) - i
  else 1000

def rangeC3 (k : Nat) : Nat :=
  if 6 ≤ k ∧ k ≤ 10 then 100 - k else if k = 1 then 10 else 100

/-- Replica-slot assignment drawing slots `[r, r+1]` for packet id `4k+r`:
two distinct slots below `CRDSA_SLOTS_PER_TICK`, and the four seed packets
of one node form a peelable chain, so all of them survive SIC. -/
def assignC3 : Nat → List Nat := fun pid => [pid % 4, pid % 4 + 1]

def nodesC3 : List NodeState :=
  (List.range NUM_NODES).map (fun k =>
    { mkNode (k + 1) with range := rangeC3 (k + 1) })

def seedsAt (k : Nat) : List Packet :=
  (List.range 4).map (fun r => safePacket (4 * k + r) (200 + 4 * k + r) k [k])

def sC3 : SimState :=
  { nodes := nodesC3,
    inventories := invWith ((List.range 5).map (fun i => (i + 6, seedsAt (i + 6)))),
    connections := [],
    economy := EconomyTracker.init }

def sC3' : SimState :=
  simulation_tick distC3 { current_time := 0, assign := assignC3, fresh0 := 1000 } sC3

/-! ### Specification predicates -/

/-- No two packets of the list share the deduplication identity
(original message id, history). -/
def DedupFree (l : List Packet) : Prop :=
  l.Pairwise (fun p q =>
    ¬(p.original_message_id = q.original_message_id ∧ p.history = q.history))

/-- All inventories and all pending copies carry only packets within TTL of
the given wall-clock time. -/
def FreshAcc (t : Int) (acc : FloodAcc) : Prop :=
  (∀ i, ∀ p ∈ acc.inv i, t - p.created_at < PACKET_TTL_SECONDS) ∧
  (∀ e ∈ acc.newPackets, t - e.2.created_at < PACKET_TTL_SECONDS)

/-- Accounting invariant for the flooding phase, relative to the node count
`n`, the starting balance sum `B0` and the starting tracker `e0`: `k` safety
relays and `m` logistics relays have happened so far. -/
def EconP (n : Nat) (B0 : Int) (e0 : EconomyTracker) (acc : FloodAcc) : Prop :=
  acc.nodes.length = n ∧
  ∃ k m : Nat,
    acc.econ.total_safety_subsidies =
      e0.total_safety_subsidies + SAFETY_RELAY_REWARD * (k : Int) ∧
    acc.econ.total_transactions = e0.total_transactions + (k + m) ∧
    sumBalances acc.nodes =
      B0 + (SAFETY_RELAY_REWARD * (k : Int) + LOGISTICS_RELAY_REWARD * (m : Int))

/-- Invariant of the flooding phase when every packet in flight is of the
"Safe" class: inventories and pending copies stay all-"Safe", and every
node's wallet has received exactly `SAFETY_RELAY_REWARD` per credit
transaction since the phase started. -/
def SafeRelayP (base : List NodeState) (acc : FloodAcc) : Prop :=
  acc.nodes.length = base.length ∧
  (∀ i, ∀ p ∈ acc.inv i, p.message_type = "Safe") ∧
  (∀ e ∈ acc.newPackets, e.2.message_type = "Safe") ∧
  ∀ i, i < base.length →
    ∃ e : Nat,
      (acc.nodes.getD i default).wallet.transaction_count =
        (base.getD i default).wallet.transaction_count + e ∧
      (acc.nodes.getD i default).wallet.balance =
        (base.getD i default).wallet.balance + SAFETY_RELAY_REWARD * (e : Int)

/-! ## Theorems -/

/-! ### General helper lemmas -/

theorem foldl_preserves {α β : Type} (P : α → Prop) (f : α → β → α)
    (h : ∀ a b, P a → P (f a b)) :
    ∀ (l : List β) (a : α), P a → P (l.foldl f a) := by
  intro l
  induction l with
  | nil => intro a ha; exact ha
  | cons x xs ih => intro a ha; exact ih (f a x) (h a x ha)

theorem foldl_preserves_mem {α β : Type} (P : α → Prop) (f : α → β → α)
    (l : List β) (h : ∀ a b, b ∈ l → P a → P (f a b)) :
    ∀ (a : α), P a → P (l.foldl f a) := by
  induction l with
  | nil => intro a ha; exact ha
  | cons x xs ih =>
    intro a ha
    exact ih (fun a b hb => h a b (List.mem_cons_of_mem x hb)) (f a x)
      (h a x (List.mem_cons_self x xs) ha)

theorem updAt_length (l : List NodeState) (i : Nat) (f : NodeState → NodeState) :
    (updAt l i f).length = l.length := by
  induction l generalizing i with
  | nil => rfl
  | cons x xs ih => cases i with
    | zero => rfl
    | succ i => simpa [updAt] using ih i

theorem getD_updAt_ne (l : List NodeState) (i j : Nat) (f : NodeState → NodeState)
    (hij : j ≠ i) :
    (updAt l i f).getD j default = l.getD j default := by
  induction l generalizing i j with
  | nil => rfl
  | cons x xs ih =>
    cases i with
    | zero =>
      cases j with
      | zero => exact absurd rfl hij
      | succ j => simp [updAt, List.getD]
    | succ i =>
      cases j with
      | zero => simp [updAt, List.getD]
      | succ j => simpa [updAt, List.getD] using ih i j (fun h => hij (by omega))

theorem getD_updAt_self (l : List NodeState) (i : Nat) (f : NodeState → NodeState)
    (hi : i < l.length) :
    (updAt l i f).getD i default = f (l.getD i default) := by
  induction l generalizing i with
  | nil => simp at hi
  | cons x xs ih =>
    cases i with
    | zero => simp [updAt, List.getD]
    | succ i => simpa [updAt, List.getD] using ih i (by simpa using hi)

theorem invWith_pred (entries : List (Nat × List Packet)) (Q : List Packet → Prop)
    (hnil : Q []) (h : ∀ e ∈ entries, Q e.2) :
    ∀ i, Q (invWith entries i) := by
  intro i
  unfold invWith
  cases hf : entries.find? (fun e => e.1 = i) with
  | none => simpa using hnil
  | some e => simpa using h e (List.mem_of_find?_eq_some hf)

theorem cleanOne_sublist (t : Int) (l : List Packet) : (cleanOne t l).Sublist l := by
  dsimp only [cleanOne]
  split
  · exact (List.drop_sublist _ _).trans l.filter_sublist
  · exact l.filter_sublist

theorem cleanOne_length_le (t : Int) (l : List Packet) :
    (cleanOne t l).length ≤ MAX_INVENTORY_SIZE := by
  dsimp only [cleanOne]
  split
  · simp only [List.length_drop]; omega
  · omega

theorem crdsaNode_sublist (assign : Nat → List Nat) (l : List Packet) :
    (crdsaNode assign l).Sublist l := by
  unfold crdsaNode
  split
  · simp
  · exact l.filter_sublist

/-! ### Claim theorems -/

/-- C3 amended: after the cleanup phase (TTL filter and size truncation) and
the contention-resolution phase of any tick, every inventory holds at most
MAX_INVENTORY_SIZE packets (the flooding phase of the same tick may then
push past the cap, as the counterexample shows). -/
theorem C3_amended (t : Int) (assign : Nat → List Nat) (inv : Inventories) (i : Nat) :
    (apply_crdsa_collision_simulation assign (cleanupInventories t inv) i).length ≤
      MAX_INVENTORY_SIZE := by
  unfold apply_crdsa_collision_simulation CRDSA_ENABLED cleanupInventories
  simp only [if_true]
  exact le_trans ((crdsaNode_sublist assign _).length_le) (cleanOne_length_le t _)

/-- C7: `spend_credits` with `amount ≤ 0` is a no-op success; with
`amount > 0` it succeeds and deducts exactly `amount` iff the balance
covers it and otherwise fails leaving the wallet unchanged; from a
non-negative balance no spend drives the balance negative. -/
theorem C7_spend_credits (w : Wallet) (amount : Int) :
    (amount ≤ 0 → w.spend_credits amount = (w, true)) ∧
    (amount > 0 → w.balance ≥ amount →
      (w.spend_credits amount).2 = true ∧
      (w.spend_credits amount).1.balance = w.balance - amount ∧
      (w.spend_credits amount).1.total_spent = w.total_spent + amount ∧
      (w.spend_credits amount).1.transaction_count = w.transaction_count + 1) ∧
    (amount > 0 → w.balance < amount → w.spend_credits amount = (w, false)) ∧
    (0 ≤ w.balance → 0 ≤ (w.spend_credits amount).1.balance) := by
  unfold Wallet.spend_credits
  refine ⟨?_, ?_, ?_, ?_⟩ <;> intros <;> split_ifs <;> simp_all <;> omega

/-- Witness for C7 at a concrete wallet and amount. -/
theorem C7_spend_credits_witness :
    ((3 : Int) > 0 ∧ (Wallet.init 1 5).balance ≥ 3) ∧
    ((Wallet.init 1 5).spend_credits 3).2 = true ∧
    ((Wallet.init 1 5).spend_credits 3).1.balance = 2 := by
  have h := (C7_spend_credits (Wallet.init 1 5) 3).2.1 (by decide) (by decide)
  exact ⟨⟨by decide, by decide⟩, h.1, by rw [h.2.1]; decide⟩

/-- C9: the reputation score is exactly 1 for an unseen peer or a peer with
`sent = 0`, is `min 1 (relayed / sent)` otherwise, and always lies in
`[0, 1]`. -/
theorem C9_reputation_score (rm : ReputationManager) (peer : Nat) :
    (lookupStats rm.peer_stats peer = none → rm.get_reputation_score peer = 1) ∧
    (∀ st, lookupStats rm.peer_stats peer = some st → st.sent = 0 →
      rm.get_reputation_score peer = 1) ∧
    (∀ st, lookupStats rm.peer_stats peer = some st → st.sent ≠ 0 →
      rm.get_reputation_score peer = min 1 ((st.relayed : ℚ) / (st.sent : ℚ))) ∧
    0 ≤ rm.get_reputation_score peer ∧ rm.get_reputation_score peer ≤ 1 := by
  have hb : 0 ≤ rm.get_reputation_score peer ∧ rm.get_reputation_score peer ≤ 1 := by
    unfold ReputationManager.get_reputation_score
    cases lookupStats rm.peer_stats peer with
    | none => norm_num
    | some st =>
      by_cases hs : st.sent = 0
      · simp [hs]
      · have hpos : (0 : ℚ) < (st.sent : ℚ) := by
          exact_mod_cast Nat.pos_of_ne_zero hs
        have hnn : (0 : ℚ) ≤ (st.relayed : ℚ) / (st.sent : ℚ) :=
          div_nonneg (by positivity) (le_of_lt hpos)
        simp only [hs, if_false]
        exact ⟨le_min (by norm_num) hnn, min_le_left _ _⟩
  refine ⟨?_, ?_, ?_, hb.1, hb.2⟩
  · intro h
    unfold ReputationManager.get_reputation_score
    rw [h]
  · intro st h h0
    unfold ReputationManager.get_reputation_score
    rw [h]
    simp [h0]
  · intro st h h0
    unfold ReputationManager.get_reputation_score
    rw [h]
    simp [h0]

/-- Witness for C9 at a concrete tracker state (peer 2: 4 sent, 3 relayed). -/
theorem C9_reputation_score_witness :
    lookupStats [(2, ({ sent := 4, relayed := 3 } : PeerStats))] 2 =
      some { sent := 4, relayed := 3 } ∧
    ReputationManager.get_reputation_score
      { node_id := 1, peer_stats := [(2, { sent := 4, relayed := 3 })] } 2 =
      min 1 ((3 : ℚ) / 4) := by
  refine ⟨by decide, ?_⟩
  have h := (C9_reputation_score
    { node_id := 1, peer_stats := [(2, { sent := 4, relayed := 3 })] } 2).2.2.1
    { sent := 4, relayed := 3 } (by decide) (by decide)
  simpa using h

set_option maxRecDepth 2000000 in
/-- C10: with links 1-2 and 2-3 and one Safe packet published at node 1,
a single tick carries a copy two hops to node 3 (because new copies are
committed after each sender's turn and the buffer is not cleared), and
both relays collect the high reward within that same tick. -/
theorem C10_intra_tick_multihop :
    (s10'.inventories 3).map (fun p => p.history) = [[1, 2, 3]] ∧
    ((s10'.nodes.map (fun n => n.wallet.balance)).take 2 =
      [INITIAL_CREDITS + SAFETY_RELAY_REWARD, INITIAL_CREDITS + SAFETY_RELAY_REWARD]) ∧
    s10'.economy.total_safety_subsidies = 2 * SAFETY_RELAY_REWARD := by decide

set_option maxRecDepth 2000000 in
/-- C2: at the failing input (node 3 holding a relayed packet with history
[1,2,3], forwarding to node 4), the code leaves node 2's tracker empty and
instead gives node 3 a "relayed" observation about itself, because it reads
`history[-1]` (the current holder) as the previous hop. -/
theorem C2_code_behavior :
    (sC2x'.nodes.getD 1 default).reputation.peer_stats = [] ∧
    (sC2x'.nodes.getD 2 default).reputation.peer_stats =
      [(3, { sent := 0, relayed := 1 }), (4, { sent := 1, relayed := 0 })] := by decide

set_option maxRecDepth 2000000 in
/-- C1 counterexample: over two ticks with a stable contact 1-2, node 1 is
paid the safety relay reward twice although only one copy is ever
delivered (the second forward is discarded as a duplicate), so the balance
does not increase "exactly once per successful hop". -/
theorem C1_counterexample :
    (sC1x'.nodes.getD 0 default).wallet.balance = INITIAL_CREDITS + 2 * SAFETY_RELAY_REWARD ∧
    (sC1x'.inventories 2).map (fun p => p.history) = [[1, 2]] ∧
    ((List.range 8).all (fun k => (sC1x'.inventories (k + 3)).isEmpty)) = true := by decide

set_option maxRecDepth 2000000 in
/-- C4 counterexample: one tick relaying a single Logistics packet raises
the balance sum by 1 while issuing no UBI and no safety subsidy, so
"sum of balances minus UBI minus safety subsidies" is not conserved. -/
theorem C4_counterexample :
    sumBalances sC4x'.nodes = sumBalances sC4x.nodes + 1 ∧
    sC4x'.economy.total_safety_subsidies = sC4x.economy.total_safety_subsidies ∧
    sC4x'.economy.tick_count % UBI_INTERVAL_TICKS ≠ 0 := by decide

set_option maxRecDepth 4000000 in
/-- C3 counterexample: one tick of the cascade scenario floods node 1 with
124 distinct copies — the flooding phase appends past the inventory cap,
which is only enforced during the cleanup phase at the start of a tick. -/
theorem C3_counterexample :
    MAX_INVENTORY_SIZE < (sC3'.inventories 1).length := by decide

/-! ### Flooding-phase structural lemmas -/

theorem relayEvent_inv (ia bId : Nat) (acc : FloodAcc) (p : Packet) :
    (relayEvent ia bId acc p).inv = acc.inv := by
  unfold relayEvent
  split <;> rfl

theorem foldl_relayEvent_inv (ia bId : Nat) :
    ∀ (l : List Packet) (acc : FloodAcc),
      (l.foldl (relayEvent ia bId) acc).inv = acc.inv := by
  intro l
  induction l with
  | nil => intro acc; rfl
  | cons p ps ih => intro acc; rw [List.foldl_cons, ih, relayEvent_inv]

theorem processPair_inv (dist : Nat → Nat → Int) (conns : List (Nat × Nat))
    (ia : Nat) (acc : FloodAcc) (ib : Nat) :
    (processPair dist conns ia acc ib).inv = acc.inv := by
  dsimp only [processPair]
  split
  · rfl
  · split
    · split
      · exact foldl_relayEvent_inv _ _ _ _
      · rfl
    · rfl

theorem foldl_processPair_inv (dist : Nat → Nat → Int) (conns : List (Nat × Nat))
    (ia : Nat) :
    ∀ (l : List Nat) (acc : FloodAcc),
      (l.foldl (processPair dist conns ia) acc).inv = acc.inv := by
  intro l
  induction l with
  | nil => intro acc; rfl
  | cons x xs ih => intro acc; rw [List.foldl_cons, ih, processPair_inv]

/-! ### C5: deduplication invariant -/

theorem dedupFree_sublist {l' l : List Packet} (hs : l'.Sublist l) (h : DedupFree l) :
    DedupFree l' := h.sublist hs

theorem commitOne_dedupFree (acc : FloodAcc) (e : Nat × Packet)
    (h : ∀ i, DedupFree (acc.inv i)) : ∀ i, DedupFree ((commitOne acc e).inv i) := by
  dsimp only [commitOne]
  split
  · exact h
  · next hex =>
    intro i
    dsimp only [updateInv]
    by_cases hi : i = e.1
    · rw [if_pos hi, hi]
      have hall : ∀ p ∈ lookupInv acc.inv e.1,
          ¬(p.original_message_id = e.2.original_message_id ∧ p.history = e.2.history) := by
        intro p hp
        simp only [List.any_eq_true, not_exists, not_and] at hex
        have := hex p hp
        simpa using this
      refine List.pairwise_append.mpr ⟨h e.1, List.pairwise_singleton _ _, ?_⟩
      intro a ha b hb
      simp only [List.mem_singleton] at hb
      subst hb
      exact hall a ha
    · rw [if_neg hi]
      exact h i

theorem processNodeA_dedupFree (dist : Nat → Nat → Int) (conns : List (Nat × Nat))
    (n : Nat) (acc : FloodAcc) (ia : Nat) (h : ∀ i, DedupFree (acc.inv i)) :
    ∀ i, DedupFree ((processNodeA dist conns n acc ia).inv i) := by
  unfold processNodeA
  apply foldl_preserves (P := fun a => ∀ i, DedupFree (a.inv i)) commitOne
    (fun a b ha => commitOne_dedupFree a b ha)
  rw [foldl_processPair_inv]
  exact fun i => h i

theorem tick_dedupFree (dist : Nat → Nat → Int) (tp : TickParams) (s : SimState)
    (h : ∀ i, DedupFree (s.inventories i)) :
    ∀ i, DedupFree ((simulation_tick dist tp s).inventories i) := by
  unfold simulation_tick floodingPhase
  apply foldl_preserves (P := fun a => ∀ i, DedupFree (a.inv i))
    (processNodeA dist s.connections _)
    (fun a b ha => processNodeA_dedupFree dist s.connections _ a b ha)
  intro i
  unfold apply_crdsa_collision_simulation CRDSA_ENABLED
  simp only [if_true]
  exact dedupFree_sublist ((crdsaNode_sublist _ _).trans (cleanOne_sublist _ _)) (h i)

/-- C5: if no inventory holds two packets sharing (original message id,
history), then after any sequence of simulation ticks no inventory does. -/
theorem C5_dedup_invariant (dist : Nat → Nat → Int) (tps : List TickParams)
    (s : SimState) (h : ∀ i, DedupFree (s.inventories i)) :
    ∀ i, DedupFree ((runTicks dist tps s).inventories i) := by
  unfold runTicks
  apply foldl_preserves (P := fun st => ∀ i, DedupFree (st.inventories i))
    (fun st tp => simulation_tick dist tp st)
    (fun st tp hst => tick_dedupFree dist tp st hst)
  exact h

/-- Witness for C5 at the chain scenario. -/
theorem C5_dedup_invariant_witness :
    (∀ i, DedupFree (s10.inventories i)) ∧
    (∀ i, DedupFree ((runTicks farDist [tpAt 0 1000] s10).inventories i)) := by
  have h0 : ∀ i, DedupFree (s10.inventories i) := by
    apply invWith_pred
    · exact List.Pairwise.nil
    · intro e he
      simp only [List.mem_singleton] at he
      subst he
      exact List.pairwise_singleton _ _
  exact ⟨h0, C5_dedup_invariant farDist [tpAt 0 1000] s10 h0⟩

/-! ### C6: TTL expiry -/

theorem mem_cleanOne_fresh (t : Int) (l : List Packet) (p : Packet)
    (hp : p ∈ cleanOne t l) : t - p.created_at < PACKET_TTL_SECONDS := by
  have hf : p ∈ l.filter (fun q => t - q.created_at < PACKET_TTL_SECONDS) := by
    dsimp only [cleanOne] at hp
    split at hp
    · exact (List.drop_sublist _ _).mem hp
    · exact hp
  simpa using (List.mem_filter.mp hf).2

theorem relayEvent_fresh (t : Int) (ia bId : Nat) (acc : FloodAcc) (p : Packet)
    (hp : t - p.created_at < PACKET_TTL_SECONDS) (hacc : FreshAcc t acc) :
    FreshAcc t (relayEvent ia bId acc p) := by
  dsimp only [relayEvent]
  split
  · exact hacc
  · refine ⟨hacc.1, ?_⟩
    intro e he
    rcases List.mem_append.mp he with h1 | h2
    · exact hacc.2 e h1
    · simp only [List.mem_singleton] at h2
      subst h2
      exact hp

theorem processPair_fresh (t : Int) (dist : Nat → Nat → Int) (conns : List (Nat × Nat))
    (ia : Nat) (acc : FloodAcc) (ib : Nat) (hacc : FreshAcc t acc) :
    FreshAcc t (processPair dist conns ia acc ib) := by
  dsimp only [processPair]
  split
  · exact hacc
  · split
    · split
      · exact foldl_preserves_mem (FreshAcc t) _ _
          (fun a q hq ha => relayEvent_fresh t _ _ a q (hacc.1 _ q hq) ha) acc hacc
      · exact hacc
    · exact hacc

theorem commitOne_fresh (t : Int) (acc : FloodAcc) (e : Nat × Packet)
    (he : t - e.2.created_at < PACKET_TTL_SECONDS) (hacc : FreshAcc t acc) :
    FreshAcc t (commitOne acc e) := by
  dsimp only [commitOne]
  split
  · exact hacc
  · refine ⟨?_, hacc.2⟩
    intro i p hp
    dsimp only [updateInv] at hp
    by_cases hi : i = e.1
    · rw [if_pos hi] at hp
      rcases List.mem_append.mp hp with h1 | h2
      · exact hacc.1 i p h1
      · simp only [List.mem_singleton] at h2
        subst h2
        exact he
    · rw [if_neg hi] at hp
      exact hacc.1 i p hp

theorem processNodeA_fresh (t : Int) (dist : Nat → Nat → Int) (conns : List (Nat × Nat))
    (n : Nat) (acc : FloodAcc) (ia : Nat) (hacc : FreshAcc t acc) :
    FreshAcc t (processNodeA dist conns n acc ia) := by
  unfold processNodeA
  have h1 : FreshAcc t ((List.range n).foldl (processPair dist conns ia) acc) :=
    foldl_preserves (FreshAcc t) _
      (fun a b ha => processPair_fresh t dist conns ia a b ha) _ acc hacc
  exact foldl_preserves_mem (FreshAcc t) _ _
    (fun a q hq ha => commitOne_fresh t a q (h1.2 q hq) ha) _ h1

theorem tick_fresh (dist : Nat → Nat → Int) (tp : TickParams) (s : SimState) :
    ∀ i, ∀ p ∈ (simulation_tick dist tp s).inventories i,
      tp.current_time - p.created_at < PACKET_TTL_SECONDS := by
  unfold simulation_tick floodingPhase
  have hacc0 : FreshAcc tp.current_time
      { nodes := if (s.economy.increment_tick).tick_count % UBI_INTERVAL_TICKS = 0 then
          s.nodes.map (fun n => { n with wallet := n.wallet.add_credits UBI_AMOUNT })
        else s.nodes,
        inv := apply_crdsa_collision_simulation tp.assign
          (cleanupInventories tp.current_time s.inventories),
        econ := s.economy.increment_tick, newPackets := [], fresh := tp.fresh0 } := by
    constructor
    · intro i p hp
      dsimp only [apply_crdsa_collision_simulation, CRDSA_ENABLED, if_true,
        cleanupInventories] at hp
      exact mem_cleanOne_fresh _ _ _ ((crdsaNode_sublist _ _).mem hp)
    · intro e he
      simp at he
  exact foldl_preserves (FreshAcc tp.current_time) _
    (fun a b ha => processNodeA_fresh tp.current_time dist s.connections _ a b ha)
    _ _ hacc0 |>.1

/-- C6: a packet created at time T — with all its copies, which preserve the
original creation time — is absent from every inventory after a tick whose
TTL cleanup runs at a time exceeding T + PACKET_TTL_SECONDS, regardless of
hop count. -/
theorem C6_ttl_expiry (dist : Nat → Nat → Int) (tp : TickParams) (s : SimState)
    (T : Int) (hT : T + PACKET_TTL_SECONDS < tp.current_time) :
    ∀ i, ∀ p ∈ (simulation_tick dist tp s).inventories i, p.created_at ≠ T := by
  intro i p hp hTeq
  have := tick_fresh dist tp s i p hp
  rw [hTeq] at this
  omega

/-- Witness for C6: one stale packet (created at 0) at node 6, cleaned up at
time 301 = TTL + 1. -/
theorem C6_ttl_expiry_witness :
    (0 : Int) + PACKET_TTL_SECONDS < 301 ∧
    (∀ i, ∀ p ∈ (simulation_tick farDist (tpAt 301 50)
      { nodes := baseNodes,
        inventories := invWith [(6, [safePacket 1 700 6 [6]])],
        connections := [(6, 7)],
        economy := EconomyTracker.init }).inventories i, p.created_at ≠ 0) := by
  refine ⟨by decide, ?_⟩
  exact C6_ttl_expiry farDist (tpAt 301 50) _ 0 (by decide)

/-! ### C4: issuance accounting -/

theorem sumBalances_nil : sumBalances [] = 0 := rfl

theorem sumBalances_cons (x : NodeState) (xs : List NodeState) :
    sumBalances (x :: xs) = x.wallet.balance + sumBalances xs := by
  simp [sumBalances]

theorem add_credits_balance_pos (w : Wallet) (c : Int) (hc : 0 < c) :
    (w.add_credits c).balance = w.balance + c := by
  simp [Wallet.add_credits, hc]

theorem add_credits_txcount_pos (w : Wallet) (c : Int) (hc : 0 < c) :
    (w.add_credits c).transaction_count = w.transaction_count + 1 := by
  simp [Wallet.add_credits, hc]

theorem sumBalances_updAt_preserve (l : List NodeState) (i : Nat)
    (f : NodeState → NodeState)
    (hf : ∀ nd, (f nd).wallet.balance = nd.wallet.balance) :
    sumBalances (updAt l i f) = sumBalances l := by
  induction l generalizing i with
  | nil => rfl
  | cons x xs ih =>
    cases i with
    | zero => simp [updAt, sumBalances_cons, hf]
    | succ i => simp [updAt, sumBalances_cons, ih i]

theorem sumBalances_updAt_add (l : List NodeState) (i : Nat) (c : Int) (hc : 0 < c)
    (hi : i < l.length) :
    sumBalances (updAt l i (fun n => { n with wallet := n.wallet.add_credits c })) =
      sumBalances l + c := by
  induction l generalizing i with
  | nil => simp at hi
  | cons x xs ih =>
    cases i with
    | zero =>
      simp only [updAt, sumBalances_cons, add_credits_balance_pos _ _ hc]
      ring
    | succ i =>
      simp only [updAt, sumBalances_cons, ih i (by simpa using hi)]
      ring

theorem sumBalances_map_ubi (l : List NodeState) :
    sumBalances (l.map (fun n => { n with wallet := n.wallet.add_credits UBI_AMOUNT })) =
      sumBalances l + UBI_AMOUNT * l.length := by
  induction l with
  | nil => simp [sumBalances]
  | cons x xs ih =>
    have h5 : (0 : Int) < UBI_AMOUNT := by decide
    simp only [List.map_cons, sumBalances_cons, ih, add_credits_balance_pos _ _ h5,
      List.length_cons]
    push_cast
    ring

theorem record_transaction_safety (e : EconomyTracker) (r : Int) :
    e.record_transaction "safety_relay" r =
      { e with total_transactions := e.total_transactions + 1,
               total_safety_subsidies := e.total_safety_subsidies + r } := by
  rfl

theorem record_transaction_logistics_relay (e : EconomyTracker) (r : Int) :
    e.record_transaction "logistics_relay" r =
      { e with total_transactions := e.total_transactions + 1 } := by
  rfl

theorem sumBalances_updAt_sent (l : List NodeState) (i peer : Nat) :
    sumBalances (updAt l i
      (fun n => { n with reputation := n.reputation.record_packet_sent_to_peer peer })) =
      sumBalances l :=
  sumBalances_updAt_preserve _ _ _ (fun _ => rfl)

theorem sumBalances_updAt_relayed (l : List NodeState) (i peer : Nat) :
    sumBalances (updAt l i
      (fun n => { n with reputation := n.reputation.record_successful_relay_by_peer peer })) =
      sumBalances l :=
  sumBalances_updAt_preserve _ _ _ (fun _ => rfl)

theorem sumBalances_updAt_known (l : List NodeState) (i x : Nat) :
    sumBalances (updAt l i
      (fun n => { n with known_messages := insertKnown n.known_messages x })) =
      sumBalances l :=
  sumBalances_updAt_preserve _ _ _ (fun _ => rfl)

theorem relayEvent_nodes_length (ia bId : Nat) (acc : FloodAcc) (p : Packet) :
    (relayEvent ia bId acc p).nodes.length = acc.nodes.length := by
  dsimp only [relayEvent]
  split
  · rfl
  · simp only [updAt_length]
    split
    · split <;> simp only [updAt_length]
    · simp only [updAt_length]

theorem commitOne_nodes_length (acc : FloodAcc) (e : Nat × Packet) :
    (commitOne acc e).nodes.length = acc.nodes.length := by
  dsimp only [commitOne]
  split
  · rfl
  · simp only [updAt_length]

theorem relayEvent_EconP (n : Nat) (B0 : Int) (e0 : EconomyTracker)
    (ia bId : Nat) (acc : FloodAcc) (p : Packet) (hia : ia < n)
    (h : EconP n B0 e0 acc) : EconP n B0 e0 (relayEvent ia bId acc p) := by
  obtain ⟨hlen, k, m, h1, h2, h3⟩ := h
  refine ⟨(relayEvent_nodes_length ia bId acc p).trans hlen, ?_⟩
  dsimp only [relayEvent]
  split
  · exact ⟨k, m, h1, h2, h3⟩
  · have hia' : ia < acc.nodes.length := by rw [hlen]; exact hia
    by_cases hsafe : p.message_type = "Safe"
    · refine ⟨k + 1, m, ?_, ?_, ?_⟩
      · simp only [if_pos hsafe, record_transaction_safety]
        rw [h1]
        push_cast
        ring
      · simp only [if_pos hsafe, record_transaction_safety]
        omega
      · simp only [if_pos hsafe]
        rw [sumBalances_updAt_sent]
        split
        · split
          · rw [sumBalances_updAt_relayed,
              sumBalances_updAt_add _ _ _ (by decide) hia', h3]
            push_cast
            ring
          · rw [sumBalances_updAt_add _ _ _ (by decide) hia', h3]
            push_cast
            ring
        · rw [sumBalances_updAt_add _ _ _ (by decide) hia', h3]
          push_cast
          ring
    · refine ⟨k, m + 1, ?_, ?_, ?_⟩
      · simp only [if_neg hsafe, record_transaction_logistics_relay]
        rw [h1]
      · simp only [if_neg hsafe, record_transaction_logistics_relay]
        omega
      · simp only [if_neg hsafe]
        rw [sumBalances_updAt_sent]
        split
        · split
          · rw [sumBalances_updAt_relayed,
              sumBalances_updAt_add _ _ _ (by decide) hia', h3]
            push_cast
            ring
          · rw [sumBalances_updAt_add _ _ _ (by decide) hia', h3]
            push_cast
            ring
        · rw [sumBalances_updAt_add _ _ _ (by decide) hia', h3]
          push_cast
          ring

theorem commitOne_EconP (n : Nat) (B0 : Int) (e0 : EconomyTracker)
    (acc : FloodAcc) (e : Nat × Packet) (h : EconP n B0 e0 acc) :
    EconP n B0 e0 (commitOne acc e) := by
  obtain ⟨hlen, k, m, h1, h2, h3⟩ := h
  refine ⟨(commitOne_nodes_length acc e).trans hlen, ?_⟩
  dsimp only [commitOne]
  split
  · exact ⟨k, m, h1, h2, h3⟩
  · exact ⟨k, m, h1, h2, by rw [sumBalances_updAt_known]; exact h3⟩

theorem processPair_EconP (n : Nat) (B0 : Int) (e0 : EconomyTracker)
    (dist : Nat → Nat → Int) (conns : List (Nat × Nat)) (ia : Nat)
    (acc : FloodAcc) (ib : Nat) (hia : ia < n) (h : EconP n B0 e0 acc) :
    EconP n B0 e0 (processPair dist conns ia acc ib) := by
  dsimp only [processPair]
  split
  · exact h
  · split
    · split
      · exact foldl_preserves (EconP n B0 e0) _
          (fun a q ha => relayEvent_EconP n B0 e0 ia _ a q hia ha) _ acc h
      · exact h
    · exact h

theorem processNodeA_EconP (n : Nat) (B0 : Int) (e0 : EconomyTracker)
    (dist : Nat → Nat → Int) (conns : List (Nat × Nat))
    (acc : FloodAcc) (ia : Nat) (hia : ia < n) (h : EconP n B0 e0 acc) :
    EconP n B0 e0 (processNodeA dist conns n acc ia) := by
  unfold processNodeA
  have h1 := foldl_preserves (EconP n B0 e0) _
    (fun a b ha => processPair_EconP n B0 e0 dist conns ia a b hia ha)
    (List.range n) acc h
  exact foldl_preserves (EconP n B0 e0) _
    (fun a b ha => commitOne_EconP n B0 e0 a b ha) _ _ h1

/-- C4 amended: across any tick, the balance sum changes exactly by the
issued UBI plus the safety-relay subsidies plus the logistics-relay rewards:
there are event counts `k` (safety relays, each adding SAFETY_RELAY_REWARD
to the tracked subsidies) and `m` (logistics relays) accounting for the
whole change; the quantity "sum of balances minus all three issuance
categories" is conserved. -/
theorem C4_amended (dist : Nat → Nat → Int) (tp : TickParams) (s : SimState) :
    ∃ k m : Nat,
      (simulation_tick dist tp s).economy.total_safety_subsidies =
        s.economy.total_safety_subsidies + SAFETY_RELAY_REWARD * (k : Int) ∧
      (simulation_tick dist tp s).economy.total_transactions =
        s.economy.total_transactions + (k + m) ∧
      sumBalances (simulation_tick dist tp s).nodes =
        sumBalances s.nodes +
          (if (s.economy.tick_count + 1) % UBI_INTERVAL_TICKS = 0
            then UBI_AMOUNT * (s.nodes.length : Int) else 0) +
          (SAFETY_RELAY_REWARD * (k : Int) + LOGISTICS_RELAY_REWARD * (m : Int)) := by
  dsimp only [simulation_tick, floodingPhase]
  set nodes1 := if (s.economy.increment_tick).tick_count % UBI_INTERVAL_TICKS = 0 then
      s.nodes.map (fun n => { n with wallet := n.wallet.add_credits UBI_AMOUNT })
    else s.nodes with hnodes1
  have hlen1 : nodes1.length = s.nodes.length := by
    rw [hnodes1]; split <;> simp
  have hB1 : sumBalances nodes1 = sumBalances s.nodes +
      (if (s.economy.tick_count + 1) % UBI_INTERVAL_TICKS = 0
        then UBI_AMOUNT * (s.nodes.length : Int) else 0) := by
    rw [hnodes1]
    have : (s.economy.increment_tick).tick_count = s.economy.tick_count + 1 := rfl
    rw [this]
    split
    · rw [sumBalances_map_ubi]
    · ring
  have hstart : EconP nodes1.length (sumBalances nodes1) s.economy.increment_tick
      { nodes := nodes1,
        inv := apply_crdsa_collision_simulation tp.assign
          (cleanupInventories tp.current_time s.inventories),
        econ := s.economy.increment_tick, newPackets := [], fresh := tp.fresh0 } :=
    ⟨rfl, 0, 0, by simp, by simp, by simp⟩
  have hfin := foldl_preserves_mem
    (EconP nodes1.length (sumBalances nodes1) s.economy.increment_tick)
    (processNodeA dist s.connections nodes1.length)
    (List.range nodes1.length)
    (fun a b hb ha => processNodeA_EconP nodes1.length (sumBalances nodes1)
        s.economy.increment_tick dist s.connections a b
        (List.mem_range.mp hb) ha)
    _ hstart
  obtain ⟨hlen, k, m, h1, h2, h3⟩ := hfin
  refine ⟨k, m, ?_, ?_, ?_⟩
  · simpa using h1
  · simpa using h2
  · rw [hB1] at h3
    simpa using h3

/-! ### C1: safety-class rewards -/

theorem spend_credits_zero (w : Wallet) : w.spend_credits 0 = (w, true) := by
  simp [Wallet.spend_credits]

theorem wallet_getD_updAt (l : List NodeState) (i : Nat) (f : NodeState → NodeState)
    (j : Nat) (hf : ∀ nd, (f nd).wallet = nd.wallet) :
    ((updAt l i f).getD j default).wallet = (l.getD j default).wallet := by
  induction l generalizing i j with
  | nil => rfl
  | cons x xs ih =>
    cases i with
    | zero =>
      cases j with
      | zero => simp [updAt, List.getD, hf]
      | succ j => simp [updAt, List.getD]
    | succ i =>
      cases j with
      | zero => simp [updAt, List.getD]
      | succ j => simpa [updAt, List.getD] using ih i j

theorem updAt_out (l : List NodeState) (i : Nat) (f : NodeState → NodeState)
    (hi : l.length ≤ i) : updAt l i f = l := by
  induction l generalizing i with
  | nil => rfl
  | cons x xs ih =>
    cases i with
    | zero => simp at hi
    | succ i => simp only [updAt, List.cons.injEq, true_and]; exact ih i (by simpa using hi)

theorem wallet_getD_updAt_sent (l : List NodeState) (i peer j : Nat) :
    ((updAt l i
      (fun n => { n with reputation := n.reputation.record_packet_sent_to_peer peer })).getD
        j default).wallet = (l.getD j default).wallet :=
  wallet_getD_updAt _ _ _ _ (fun _ => rfl)

theorem wallet_getD_updAt_relayed (l : List NodeState) (i peer j : Nat) :
    ((updAt l i
      (fun n => { n with reputation := n.reputation.record_successful_relay_by_peer peer })).getD
        j default).wallet = (l.getD j default).wallet :=
  wallet_getD_updAt _ _ _ _ (fun _ => rfl)

theorem wallet_getD_updAt_known (l : List NodeState) (i x j : Nat) :
    ((updAt l i
      (fun n => { n with known_messages := insertKnown n.known_messages x })).getD
        j default).wallet = (l.getD j default).wallet :=
  wallet_getD_updAt _ _ _ _ (fun _ => rfl)

/-- The wallet of node `j` after one relay event: only the relaying node's
position `ia` is credited (when the anti-loop check passes), by the reward
tier of the packet's class. -/
theorem relayEvent_wallet (ia bId : Nat) (acc : FloodAcc) (p : Packet) (j : Nat)
    (hia : ia < acc.nodes.length) :
    ((relayEvent ia bId acc p).nodes.getD j default).wallet =
      if bId ∈ p.history then (acc.nodes.getD j default).wallet
      else if j = ia then
        (acc.nodes.getD j default).wallet.add_credits
          (if p.message_type = "Safe" then SAFETY_RELAY_REWARD else LOGISTICS_RELAY_REWARD)
      else (acc.nodes.getD j default).wallet := by
  dsimp only [relayEvent]
  split
  · rfl
  · dsimp only []
    rw [wallet_getD_updAt_sent]
    by_cases hj : j = ia
    · subst hj
      rw [if_pos rfl]
      split
      · split
        · rw [wallet_getD_updAt_relayed, getD_updAt_self _ _ _ hia]
        · rw [getD_updAt_self _ _ _ hia]
      · rw [getD_updAt_self _ _ _ hia]
    · rw [if_neg hj]
      split
      · split
        · rw [wallet_getD_updAt_relayed, getD_updAt_ne _ _ _ _ hj]
        · rw [getD_updAt_ne _ _ _ _ hj]
      · rw [getD_updAt_ne _ _ _ _ hj]

theorem commitOne_wallet (acc : FloodAcc) (e : Nat × Packet) (j : Nat) :
    ((commitOne acc e).nodes.getD j default).wallet =
      (acc.nodes.getD j default).wallet := by
  dsimp only [commitOne]
  split
  · rfl
  · dsimp only []
    rw [wallet_getD_updAt_known]

theorem relayEvent_SafeRelayP (base : List NodeState) (ia bId : Nat)
    (acc : FloodAcc) (p : Packet) (hia : ia < base.length)
    (hp : p.message_type = "Safe") (h : SafeRelayP base acc) :
    SafeRelayP base (relayEvent ia bId acc p) := by
  obtain ⟨hlen, hinv, hnew, hwal⟩ := h
  have hia' : ia < acc.nodes.length := by rw [hlen]; exact hia
  refine ⟨(relayEvent_nodes_length ia bId acc p).trans hlen, ?_, ?_, ?_⟩
  · rw [relayEvent_inv]; exact hinv
  · dsimp only [relayEvent]
    split
    · exact hnew
    · intro e he
      rcases List.mem_append.mp he with h1 | h2
      · exact hnew e h1
      · simp only [List.mem_singleton] at h2
        subst h2
        exact hp
  · intro i hi
    obtain ⟨e, he1, he2⟩ := hwal i hi
    rw [relayEvent_wallet ia bId acc p i hia']
    split
    · exact ⟨e, he1, he2⟩
    · by_cases hii : i = ia
      · rw [if_pos hii]
        refine ⟨e + 1, ?_, ?_⟩
        · rw [add_credits_txcount_pos _ _ (by decide), he1]
          omega
        · rw [add_credits_balance_pos _ _ (by decide), he2]
          push_cast
          ring
      · rw [if_neg hii]
        exact ⟨e, he1, he2⟩

theorem commitOne_SafeRelayP (base : List NodeState) (acc : FloodAcc)
    (e : Nat × Packet) (he : e.2.message_type = "Safe") (h : SafeRelayP base acc) :
    SafeRelayP base (commitOne acc e) := by
  obtain ⟨hlen, hinv, hnew, hwal⟩ := h
  refine ⟨(commitOne_nodes_length acc e).trans hlen, ?_, ?_, ?_⟩
  · intro i p hp
    dsimp only [commitOne] at hp
    split at hp
    · exact hinv i p hp
    · dsimp only [updateInv] at hp
      by_cases hi : i = e.1
      · rw [if_pos hi] at hp
        rcases List.mem_append.mp hp with h1 | h2
        · exact hinv i p h1
        · simp only [List.mem_singleton] at h2
          subst h2
          exact he
      · rw [if_neg hi] at hp
        exact hinv i p hp
  · dsimp only [commitOne]
    split
    · exact hnew
    · exact hnew
  · intro i hi
    obtain ⟨e', he1, he2⟩ := hwal i hi
    rw [commitOne_wallet]
    exact ⟨e', he1, he2⟩

theorem processPair_SafeRelayP (base : List NodeState) (dist : Nat → Nat → Int)
    (conns : List (Nat × Nat)) (ia : Nat) (acc : FloodAcc) (ib : Nat)
    (hia : ia < base.length) (h : SafeRelayP base acc) :
    SafeRelayP base (processPair dist conns ia acc ib) := by
  dsimp only [processPair]
  split
  · exact h
  · split
    · split
      · exact foldl_preserves_mem (SafeRelayP base) _ _
          (fun a q hq ha => relayEvent_SafeRelayP base ia _ a q hia
            (h.2.1 _ q hq) ha) acc h
      · exact h
    · exact h

theorem processNodeA_SafeRelayP (base : List NodeState) (dist : Nat → Nat → Int)
    (conns : List (Nat × Nat)) (n : Nat) (acc : FloodAcc) (ia : Nat)
    (hia : ia < base.length) (h : SafeRelayP base acc) :
    SafeRelayP base (processNodeA dist conns n acc ia) := by
  unfold processNodeA
  have h1 := foldl_preserves (SafeRelayP base) _
    (fun a b ha => processPair_SafeRelayP base dist conns ia a b hia ha)
    (List.range n) acc h
  exact foldl_preserves_mem (SafeRelayP base) _ _
    (fun a q hq ha => commitOne_SafeRelayP base a q (h1.2.2.1 q hq) ha) _ h1

/-- C1 amended: publishing a "Safe" message leaves the publisher's balance
unchanged (zero send cost), and over a tick in which all stored packets are
"Safe" (and no UBI falls due), each node's balance grows by exactly
SAFETY_RELAY_REWARD per wallet credit transaction — one per forwarding
event, which can exceed one per successful hop when an already-delivered
copy is re-forwarded. -/
theorem C1_amended (dist : Nat → Nat → Int) (tp : TickParams) (s : SimState)
    (req : PublishRequest) (orig pid : Nat) (ts : Int) (sv pv : String)
    (s₂ : SimState)
    (hreq : req.message_type = "Safe")
    (hpub : publish_message req orig pid ts sv pv s = some s₂)
    (hSafe : ∀ i, ∀ p ∈ s.inventories i, p.message_type = "Safe")
    (hUBI : (s.economy.tick_count + 1) % UBI_INTERVAL_TICKS ≠ 0) :
    ((s₂.nodes.getD (req.publisher_node_id - 1) default).wallet.balance =
      (s.nodes.getD (req.publisher_node_id - 1) default).wallet.balance) ∧
    (∀ i, i < s.nodes.length →
      ∃ e : Nat,
        ((simulation_tick dist tp s).nodes.getD i default).wallet.transaction_count =
          (s.nodes.getD i default).wallet.transaction_count + e ∧
        ((simulation_tick dist tp s).nodes.getD i default).wallet.balance =
          (s.nodes.getD i default).wallet.balance + SAFETY_RELAY_REWARD * (e : Int)) := by
  constructor
  · dsimp only [publish_message] at hpub
    rw [hreq] at hpub
    simp only [eq_self_iff_true, if_true, SAFETY_SEND_COST, spend_credits_zero] at hpub
    split at hpub
    · exact absurd hpub (by simp)
    · split at hpub
      · exact absurd hpub (by simp)
      · simp only [Bool.not_true, Bool.false_eq_true, not_true_eq_false,
          if_false, Option.some.injEq] at hpub
        subst hpub
        by_cases hidx : req.publisher_node_id - 1 < s.nodes.length
        · rw [getD_updAt_self _ _ _ hidx]
        · rw [updAt_out _ _ _ (Nat.le_of_not_lt hidx)]
  · intro i hi
    have hub : ¬ ((s.economy.increment_tick).tick_count % UBI_INTERVAL_TICKS = 0) := hUBI
    dsimp only [simulation_tick, floodingPhase]
    rw [if_neg hub]
    have hstart : SafeRelayP s.nodes
        { nodes := s.nodes,
          inv := apply_crdsa_collision_simulation tp.assign
            (cleanupInventories tp.current_time s.inventories),
          econ := s.economy.increment_tick, newPackets := [], fresh := tp.fresh0 } := by
      refine ⟨rfl, ?_, by simp, fun i hi => ⟨0, by simp, by simp⟩⟩
      intro j p hp
      dsimp only [apply_crdsa_collision_simulation, CRDSA_ENABLED, if_true,
        cleanupInventories] at hp
      exact hSafe j p
        ((cleanOne_sublist _ _).mem ((crdsaNode_sublist _ _).mem hp))
    have hfin := foldl_preserves_mem (SafeRelayP s.nodes)
      (processNodeA dist s.connections s.nodes.length)
      (List.range s.nodes.length)
      (fun a b hb ha => processNodeA_SafeRelayP s.nodes dist s.connections
        s.nodes.length a b (List.mem_range.mp hb) ha)
      _ hstart
    exact hfin.2.2.2 i hi

/-! ### C8: lone packet always resolved -/

theorem sicLoop_unres_nil (assign : Nat → List Nat) (fuel : Nat)
    (slots : Nat → List Packet) (resolved : List Nat) :
    sicLoop assign fuel slots resolved [] = resolved := by
  cases fuel <;> rfl

theorem sic_fold_unres_nil (assign : Nat → List Nat) (l : List Nat) :
    ∀ st : (Nat → List Packet) × List Nat × List Nat, st.2.2 = [] →
      (l.foldl (fun st pid => (cancelPacket assign st.1 pid, st.2.1 ++ [pid],
        st.2.2.filter (fun x => x ≠ pid))) st).2.2 = [] := by
  induction l with
  | nil => intro st h; exact h
  | cons y ys ih =>
    intro st h
    exact ih _ (by simp [h])

theorem sic_fold_resolved_mem (assign : Nat → List Nat) (l : List Nat) :
    ∀ (st : (Nat → List Packet) × List Nat × List Nat) (x : Nat), x ∈ st.2.1 →
      x ∈ (l.foldl (fun st pid => (cancelPacket assign st.1 pid, st.2.1 ++ [pid],
        st.2.2.filter (fun x => x ≠ pid))) st).2.1 := by
  induction l with
  | nil => intro st x h; exact h
  | cons y ys ih =>
    intro st x h
    exact ih _ x (List.mem_append_left _ h)

/-- C8: when a node's inventory holds exactly one packet, the CRDSA/SIC
resolver returns it for every assignment `random.sample` can draw (the
prescribed replica count of distinct in-range slots): the lone packet's
slots are all singletons, so the first SIC iteration resolves it. -/
theorem C8_lone_packet_resolved (assign : Nat → List Nat) (p : Packet)
    (hlen : (assign p.packet_id).length = min CRDSA_REPLICAS CRDSA_SLOTS_PER_TICK)
    (hnodup : (assign p.packet_id).Nodup)
    (hlt : ∀ j ∈ assign p.packet_id, j < CRDSA_SLOTS_PER_TICK) :
    crdsaNode assign [p] = [p] := by
  have hne : assign p.packet_id ≠ [] := by
    intro h
    rw [h] at hlen
    simp [CRDSA_REPLICAS, CRDSA_SLOTS_PER_TICK] at hlen
  obtain ⟨j₀, hj₀⟩ := List.exists_mem_of_ne_nil _ hne
  have hj₀5 : j₀ < CRDSA_SLOTS_PER_TICK := hlt j₀ hj₀
  have hslots : ∀ j, buildSlots assign [p] j =
      if j ∈ assign p.packet_id then [p] else [] := by
    intro j
    unfold buildSlots
    by_cases hj : j ∈ assign p.packet_id
    · simp [hj]
    · simp [hj]
  have hmem_newly : p.packet_id ∈
      findNewlyResolved (buildSlots assign [p]) [p.packet_id] := by
    unfold findNewlyResolved
    apply List.mem_filterMap.mpr
    refine ⟨j₀, List.mem_range.mpr hj₀5, ?_⟩
    rw [hslots j₀, if_pos hj₀]
    simp
  have hall_newly : ∀ x ∈ findNewlyResolved (buildSlots assign [p]) [p.packet_id],
      x = p.packet_id := by
    intro x hx
    unfold findNewlyResolved at hx
    obtain ⟨j, _, hfx⟩ := List.mem_filterMap.mp hx
    rw [hslots j] at hfx
    by_cases hj' : j ∈ assign p.packet_id
    · rw [if_pos hj'] at hfx
      simp at hfx
      omega
    · rw [if_neg hj'] at hfx
      simp at hfx
  have hres : p.packet_id ∈ sicLoop assign CRDSA_MAX_SIC_ITERATIONS
      (buildSlots assign [p]) [] [p.packet_id] := by
    show p.packet_id ∈ sicLoop assign (9 + 1) (buildSlots assign [p]) [] [p.packet_id]
    rw [sicLoop]
    rw [if_neg (by simp)]
    dsimp only
    split
    · next hnil => exact absurd (hnil ▸ hmem_newly) (List.not_mem_nil _)
    · next hnn =>
      cases hn : findNewlyResolved (buildSlots assign [p]) [p.packet_id] with
      | nil => exact absurd hn hnn
      | cons y ys =>
        have hy : y = p.packet_id := hall_newly y (hn ▸ List.mem_cons_self y ys)
        have hys : ∀ x ∈ ys, x = p.packet_id := fun x hx =>
          hall_newly x (hn ▸ List.mem_cons_of_mem y hx)
        simp only [List.foldl_cons]
        have hstep2 : ([p.packet_id].filter (fun x => x ≠ y)) = [] := by
          subst hy
          simp
        have hunres := sic_fold_unres_nil assign ys
          (cancelPacket assign (buildSlots assign [p]) y, [] ++ [y],
            [p.packet_id].filter (fun x => x ≠ y)) hstep2
        have hresmem := sic_fold_resolved_mem assign ys
          (cancelPacket assign (buildSlots assign [p]) y, [] ++ [y],
            [p.packet_id].filter (fun x => x ≠ y)) p.packet_id
          (by simp [hy])
        set st' := ys.foldl (fun st pid => (cancelPacket assign st.1 pid,
          st.2.1 ++ [pid], st.2.2.filter (fun x => x ≠ pid)))
          (cancelPacket assign (buildSlots assign [p]) y, [] ++ [y],
            [p.packet_id].filter (fun x => x ≠ y)) with hst'

        rw [show st'.2.2 = [] from hunres] at *
        rw [sicLoop_unres_nil]
        exact hresmem
  unfold crdsaNode
  rw [if_neg (by simp)]
  simp only [List.map_cons, List.map_nil]
  have : List.filter (fun q => decide (q.packet_id ∈ sicLoop assign
      CRDSA_MAX_SIC_ITERATIONS (buildSlots assign [p]) [] [p.packet_id])) [p] = [p] := by
    simp [List.filter, hres]
  exact this

/-- Witness for C8 with the concrete assignment drawing slots 0 and 1. -/
theorem C8_lone_packet_resolved_witness :
    ((assign01 7).length = min CRDSA_REPLICAS CRDSA_SLOTS_PER_TICK ∧
      (assign01 7).Nodup ∧ ∀ j ∈ assign01 7, j < CRDSA_SLOTS_PER_TICK) ∧
    crdsaNode assign01 [safePacket 7 600 1 [1]] = [safePacket 7 600 1 [1]] := by
  refine ⟨⟨by decide, by decide, by decide⟩, ?_⟩
  exact C8_lone_packet_resolved assign01 (safePacket 7 600 1 [1])
    (by decide) (by decide) (by decide)

/-- Witness for C1 amended at the link-(1,2) scenario: a Safe publish from
node 1 and one tick. -/
theorem C1_amended_witness :
    (∀ i, ∀ p ∈ sC1x.inventories i, p.message_type = "Safe") ∧
    ((sC1x.economy.tick_count + 1) % UBI_INTERVAL_TICKS ≠ 0) ∧
    (∃ s₂, publish_message ⟨1, "m", [2], "Safe"⟩ 900 901 0 "sig" "zkp" sC1x = some s₂ ∧
      (s₂.nodes.getD 0 default).wallet.balance =
        (sC1x.nodes.getD 0 default).wallet.balance) ∧
    (∀ i, i < sC1x.nodes.length →
      ∃ e : Nat,
        ((simulation_tick farDist (tpAt 0 1000) sC1x).nodes.getD i
            default).wallet.transaction_count =
          (sC1x.nodes.getD i default).wallet.transaction_count + e ∧
        ((simulation_tick farDist (tpAt 0 1000) sC1x).nodes.getD i
            default).wallet.balance =
          (sC1x.nodes.getD i default).wallet.balance +
            SAFETY_RELAY_REWARD * (e : Int)) := by
  have hSafe : ∀ i, ∀ p ∈ sC1x.inventories i, p.message_type = "Safe" := by
    exact invWith_pred [(1, [safePacket 1 500 1 [1]])]
      (fun l => ∀ p ∈ l, p.message_type = "Safe")
      (fun p hp => absurd hp (List.not_mem_nil p))
      (fun e he p hp => by
        simp only [List.mem_singleton] at he
        subst he
        simp only [List.mem_singleton] at hp
        subst hp
        rfl)
  refine ⟨hSafe, by decide, ?_, ?_⟩
  · exact ⟨_, rfl, (C1_amended farDist (tpAt 0 1000) sC1x ⟨1, "m", [2], "Safe"⟩
      900 901 0 "sig" "zkp" _ rfl rfl hSafe (by decide)).1⟩
  · exact (C1_amended farDist (tpAt 0 1000) sC1x ⟨1, "m", [2], "Safe"⟩
      900 901 0 "sig" "zkp" _ rfl rfl hSafe (by decide)).2

end CommBreakdown
